import Mathlib

/-!
Verification development for the nestauk/nhsx_playscrape repository.

The repository contains two Google Play review scrapers:
  * `playscrape.py` (the maintained script) with `is_date`, `_click_element`,
    `click_elements`, `expand_reviews`, `get_rating`, `get_element_text`,
    `extract_review`, `parse_reviews`, and the orchestration
    `expand_and_parse_reviews` / `playscrape`;
  * `playscrape/playscrape.py` (the superseded script) with `scrape`.

This file shallowly embeds those functions.  Pure string processing is
translated directly; the Selenium-driven parts (`_click_element`,
`click_elements`, `expand_reviews`) are modelled by explicit state passing
over the data they actually touch (the module-level `CACHE` dictionary, the
log of physical clicks performed, and the sequence of page-source lengths
observed by the scroll loop).  Python exceptions are modelled with
`Except String`.
-/

deriving instance DecidableEq for Except

namespace Playscrape

/-! ## The date validator `is_date`

`is_date(text)` calls `datetime.strptime(text, "%B %d, %Y")` and reports
whether it raised `ValueError`.  CPython's `_strptime` compiles the format
to a regular expression: `%B` is the alternation of the full month names
matched case-insensitively, whitespace in the format matches one or more
whitespace characters, `,` is literal, `%d` is `3[01]|[12]\d|0[1-9]|[1-9]`,
`%Y` is exactly four digits, and the whole string must be consumed.  The
parsed triple is then passed to the `datetime` constructor, which raises
unless `1 <= year` and the day fits in the month (with leap years).
The parser below reproduces this, including the regex backtracking from the
two-digit day alternatives to the one-digit one. -/

def pyMonths : List (List Char × Nat) :=
  [("january".toList, 1), ("february".toList, 2), ("march".toList, 3),
   ("april".toList, 4), ("may".toList, 5), ("june".toList, 6),
   ("july".toList, 7), ("august".toList, 8), ("september".toList, 9),
   ("october".toList, 10), ("november".toList, 11), ("december".toList, 12)]

/-- Strip a (lower-case) pattern from the front of the input,
comparing case-insensitively, as the IGNORECASE month regex does. -/
def stripCaseless : List Char → List Char → Option (List Char)
  | [], cs => some cs
  | _ :: _, [] => none
  | p :: ps, c :: cs => if c.toLower = p then stripCaseless ps cs else none

def matchMonth : List (List Char × Nat) → List Char → Option (Nat × List Char)
  | [], _ => none
  | (nm, m) :: rest, cs =>
    match stripCaseless nm cs with
    | some cs2 => some (m, cs2)
    | none => matchMonth rest cs

/-- ASCII whitespace as matched by the Python regex class backslash-s. -/
def isPySpace (c : Char) : Bool :=
  c == ' ' || c == '\t' || c == '\n' || c == '\r' ||
    c == Char.ofNat 11 || c == Char.ofNat 12

/-- Match one or more whitespace characters (greedy). -/
def skipWs1 : List Char → Option (List Char)
  | [] => none
  | c :: cs => if isPySpace c then some (cs.dropWhile isPySpace) else none

def digitVal (c : Char) : Nat := c.toNat - 48

/-- The two-digit alternatives of the day regex: 3[01], [12] digit, 0[1-9]. -/
def matchDay2 : List Char → Option (Nat × List Char)
  | c1 :: c2 :: cs =>
    if c1 == '3' && (c2 == '0' || c2 == '1') then some (30 + digitVal c2, cs)
    else if (c1 == '1' || c1 == '2') && c2.isDigit then
      some (10 * digitVal c1 + digitVal c2, cs)
    else if c1 == '0' && c2.isDigit && !(c2 == '0') then some (digitVal c2, cs)
    else none
  | _ => none

/-- The one-digit alternative of the day regex: [1-9]. -/
def matchDay1 : List Char → Option (Nat × List Char)
  | c :: cs => if c.isDigit && !(c == '0') then some (digitVal c, cs) else none
  | [] => none

/-- Exactly four digits followed by the end of the string. -/
def matchYearEnd : List Char → Option Nat
  | [a, b, c, d] =>
    if a.isDigit && b.isDigit && c.isDigit && d.isDigit then
      some (1000 * digitVal a + 100 * digitVal b + 10 * digitVal c + digitVal d)
    else none
  | _ => none

/-- The rest of the pattern after the day: a literal comma, whitespace,
and the four-digit year ending the string. -/
def matchTail (cs : List Char) : Option Nat :=
  match cs with
  | ',' :: cs2 =>
    match skipWs1 cs2 with
    | some cs3 => matchYearEnd cs3
    | none => none
  | _ => none

/-- Day-then-tail, with the regex backtracking: a two-digit day whose
continuation fails falls back to the one-digit alternative. -/
def parseAfterMonth (m : Nat) (cs2 : List Char) : Option (Nat × Nat × Nat) :=
  match matchDay2 cs2 with
  | some (d, cs3) =>
    match matchTail cs3 with
    | some y => some (m, d, y)
    | none =>
      match matchDay1 cs2 with
      | some (d1, cs4) => (matchTail cs4).map (fun y => (m, d1, y))
      | none => none
  | none =>
    match matchDay1 cs2 with
    | some (d1, cs4) => (matchTail cs4).map (fun y => (m, d1, y))
    | none => none

/-- The regex phase of `strptime(text, "%B %d, %Y")`:
month, whitespace, day, comma, whitespace, four-digit year, end. -/
def strptimeBdY (text : String) : Option (Nat × Nat × Nat) :=
  match matchMonth pyMonths text.toList with
  | none => none
  | some (m, cs) =>
    match skipWs1 cs with
    | none => none
    | some cs2 => parseAfterMonth m cs2

def isLeap (y : Nat) : Bool :=
  y % 4 == 0 && (y % 100 != 0 || y % 400 == 0)

def daysInMonth (m y : Nat) : Nat :=
  if m == 2 then (if isLeap y then 29 else 28)
  else if m == 4 || m == 6 || m == 9 || m == 11 then 30
  else 31

/-- `is_date(text)`: strptime succeeds and the datetime constructor accepts
the parsed (year, month, day). -/
def is_date (text : String) : Bool :=
  match strptimeBdY text with
  | none => false
  | some (m, d, y) => decide (1 ≤ y) && decide (d ≤ daysInMonth m y)

/-! ## Candidate containers and the extractor

`extract_review` receives a BeautifulSoup tag and only inspects
`review_container.findChildren()`: the list of all descendant elements in
document order.  Of each descendant it uses the `aria-label` attribute
(`get_rating`), the number of child elements, and the text
(`get_element_text`).  A candidate container is therefore embedded as the
list of those descendant views. -/

structure Element where
  ariaLabel : Option String
  childCount : Nat
  text : String
deriving Repr, DecidableEq

/-- Models Python `s.endswith(suffix)`. -/
def strEndsWith (s suf : String) : Bool :=
  suf.toList.isSuffixOf s.toList

/-- Models the one-character string `s[i]` (defined where `i` is in range). -/
def charAtPos (s : String) (i : Nat) : String :=
  String.singleton (s.toList.getD i ' ')

/-- `get_rating`: the aria-label, when present, ending with
"stars out of five stars" and of total length 31; then character 6. -/
def get_rating (e : Element) : Option String :=
  match e.ariaLabel with
  | some rating =>
    if strEndsWith rating "stars out of five stars" && decide (rating.length = 31)
    then some (charAtPos rating 6) else none
  | none => none

/-- `get_element_text`: the element's text only if it has no children. -/
def get_element_text (e : Element) : Option String :=
  if e.childCount > 0 then none else some e.text

/-- `filter(bool, map(get_element_text, container_elements))`: drop the
`None` results and the empty strings. -/
def leaf_texts (c : List Element) : List String :=
  ((c.map get_element_text).filterMap id).filter (fun s => decide (s ≠ ""))

/-- The `for _rating in filter(bool, map(get_rating, ...)): break` idiom:
the first truthy rating among the descendants, if any. -/
def first_rating (c : List Element) : Option String :=
  (((c.map get_rating).filterMap id).filter (fun s => decide (s ≠ ""))).head?

/-- The reply-truncation step: `review_parts[0:-2]` when the last leaf
value parses as a date (the slice keeps the first `length - 2` values). -/
def truncate_reply (parts : List String) : List String :=
  if is_date (parts.getLastD "") then parts.take (parts.length - 2) else parts

def indexErrorMsg : String := "IndexError: pop from empty list"

def ratingUnboundMsg : String :=
  "UnboundLocalError: local variable _rating referenced before assignment"

structure Review where
  reviewer : String
  date : String
  rating : Option String
  review : String
deriving Repr, DecidableEq

/-- The validation tail of `extract_review`, applied to the first truthy
rating and the non-empty leaf texts of the container.  `Except.error`
models a raised exception escaping `extract_review`; `Except.ok none`
models `return None` (a rejected candidate); `Except.ok (some r)` models an
emitted record.  After the truncation, a singleton list reaches the second
`review_parts.pop(0)` with the list empty, raising IndexError; a record
construction with no rating bound raises UnboundLocalError at the
`dict(..., rating=_rating, ...)` line. -/
def validate_parts (ratingVal : Option String) (review_parts : List String) :
    Except String (Option Review) :=
  if review_parts.length = 0 then .ok none
  else
    match truncate_reply review_parts with
    | [] => .ok none
    | [_] => .error indexErrorMsg
    | reviewer :: review_date :: rest =>
      if is_date review_date then
        match ratingVal with
        | none => .error ratingUnboundMsg
        | some rt => .ok (some ⟨reviewer, review_date, some rt, rest.getLastD ""⟩)
      else .ok none

/-- `extract_review` on a candidate container given as its descendant list. -/
def extract_review (c : List Element) : Except String (Option Review) :=
  validate_parts (first_rating c) (leaf_texts c)

/-- The record-collection step of `parse_reviews`:
`list(filter(bool, map(extract_review, review_containers)))`. -/
def parse_records (cs : List (List Element)) : Except String (List Review) :=
  (cs.mapM extract_review).map (fun l => l.filterMap id)

/-! ## The superseded second script's `scrape`

`playscrape/playscrape.py` processes the same candidate containers with an
inline loop: the rating is the LAST aria-label ending with the suffix (no
length check) with `rating = None` as the default, the leaf texts are the
childless descendants with non-empty text, the truncation and validation
read `_review[1]` without popping, and the accepted records are finally
passed through the parity filter
`[r for i, r in enumerate(reviews) if i % 2 == 0]`. -/

/-- The inline rating match of `scrape`: aria-label ending with the suffix
(no length-31 requirement), keeping the last match. -/
def scrape_rating_of (e : Element) : Option String :=
  match e.ariaLabel with
  | some rating =>
    if strEndsWith rating "stars out of five stars"
    then some (charAtPos rating 6) else none
  | none => none

def scrapeIndexErrorMsg : String := "IndexError: list index out of range"

/-- The per-candidate body of `scrape`'s loop. -/
def scrape_extract (c : List Element) : Except String (Option Review) :=
  let review := (c.map (fun e =>
      if e.childCount > 0 || e.text == "" then none else some e.text)).filterMap id
  let rating := (c.map scrape_rating_of).filterMap id |>.getLast?
  if review.length = 0 then .ok none
  else
    let rev2 := if is_date (review.getLastD "") then review.take (review.length - 2)
                else review
    if is_date (review.getLastD "") && decide (rev2.length = 0) then .ok none
    else
      match rev2.get? 1 with
      | none => .error scrapeIndexErrorMsg
      | some second =>
        if is_date second then
          .ok (some ⟨rev2.headD "", second, rating,
                      if rev2.length > 2 then rev2.getLastD "" else ""⟩)
        else .ok none

/-- The even-position parity filter ending `scrape`. -/
def evenPositions {α : Type} (l : List α) : List α :=
  (l.enum.filter (fun p => p.1 % 2 == 0)).map (fun p => p.2)

/-- The record-collection step of `scrape`: the accepted records, then the
parity filter. -/
def scrape_records (cs : List (List Element)) : Except String (List Review) :=
  ((cs.mapM scrape_extract).map (fun l => l.filterMap id)).map evenPositions

/-! ## The click cache

`_click_element` is wrapped in `@cached(cache=CACHE, key=str)`: on a cache
hit the stored value is returned and no click happens; on a miss the click
is performed, its Boolean outcome stored under `str(element)`, and
returned.  `click_elements` then deletes the key when the outcome was
`False`.  The state threads the `CACHE` dictionary together with a log of
the physical clicks performed; an element is identified by its key, and the
outcome a physical click would have (interactable or not at that moment) is
passed in explicitly. -/

def Cache : Type := List (String × Bool)

def cacheLookup (k : String) (c : Cache) : Option Bool :=
  (List.find? (fun e => e.1 == k) c).map (fun e => e.2)

def cacheInsert (k : String) (v : Bool) (c : Cache) : Cache :=
  (k, v) :: List.filter (fun e => !(e.1 == k)) c

def cacheErase (k : String) (c : Cache) : Cache :=
  List.filter (fun e => !(e.1 == k)) c

structure ClickState where
  cache : Cache
  clicks : List String

/-- `_click_element` under its `@cached` decorator. -/
def _click_element (outcome : Bool) (key : String) (s : ClickState) :
    Bool × ClickState :=
  match cacheLookup key s.cache with
  | some v => (v, s)
  | none => (outcome, ⟨cacheInsert key outcome s.cache, s.clicks ++ [key]⟩)

/-- One iteration of the `click_elements` loop body: call the cached
`_click_element`, and on failure delete the key from `CACHE`. -/
def attempt (outcome : Bool) (key : String) (s : ClickState) :
    Bool × ClickState :=
  let r := _click_element outcome key s
  if r.1 then r
  else (r.1, ⟨cacheErase key r.2.cache, r.2.clicks⟩)

/-- A sequence of `attempt`s (the clicks a session issues), threading the
module-level `CACHE`. -/
def run_clicks (acts : List (String × Bool)) (s : ClickState) : ClickState :=
  acts.foldl (fun st a => (attempt a.2 a.1 st).2) s

/-- One `expand_and_parse_reviews` call for one app id, restricted to its
effect on the module-level `CACHE`: the session opens, issues its clicks
through `click_elements`, and closes.  Neither `open_browser`'s teardown
(`driver.close()`) nor any other statement in the source ever clears or
reassigns `CACHE`, so the crawl's only effect on it is the clicks
performed. -/
def session_crawl (acts : List (String × Bool)) (s : ClickState) : ClickState :=
  run_clicks acts s

/-- The `playscrape` batch loop: successive per-identifier crawls threading
the single module-level `CACHE`. -/
def run_batch (batch : List (List (String × Bool))) (s : ClickState) : ClickState :=
  batch.foldl (fun st acts => session_crawl acts st) s

/-! ## The page stabilizer `expand_reviews`

The loop observes `len(driver.page_source)` at the start of each round,
expands and scrolls, observes the length again, and breaks with
`found_the_end = True` when the two agree; otherwise it continues, bounded
by `max_scrolls` rounds.  When the loop ends without the break, a
non-convergence warning is printed.  The page is modelled by the lengths it
reports: `lens i` is the rendered content length after `i` rounds of
expansion activity, so round `i+1` observes `lens i` at its start and
`lens (i+1)` at its end. -/

/-- The loop of `expand_reviews`, from round count `i` with `rem` rounds of
budget left.  Returns (number of rounds executed, `found_the_end`). -/
def expand_rounds (lens : Nat → Nat) : Nat → Nat → Nat × Bool
  | i, 0 => (i, false)
  | i, rem + 1 =>
    if lens (i + 1) = lens i then (i + 1, true)
    else expand_rounds lens (i + 1) rem

/-- `expand_reviews` with round budget `max_scrolls`: rounds executed and
whether the end was found. -/
def expand_reviews (lens : Nat → Nat) (max_scrolls : Nat) : Nat × Bool :=
  expand_rounds lens 0 max_scrolls

/-- The warning is printed exactly when `found_the_end` stayed `False`. -/
def expand_warns (lens : Nat → Nat) (max_scrolls : Nat) : Bool :=
  !(expand_reviews lens max_scrolls).2

/-! ## The document model and `parse_reviews`

`parse_reviews` needs more of the page than `extract_review`: it scans
`soup.find_all("div")` for the first element with a truthy `get_rating`,
walks six `.parent` steps up from it, reads that ancestor's `class`
attribute, and collects every div with that class as a candidate
container.  A rendered document is a tree of tags; each tag carries its
name, optional aria-label, optional class list, and its direct string
content. -/

inductive Dom where
  | mk (tag : String) (ariaLabel : Option String) (classes : Option (List String))
       (text : String) (children : List Dom)

def Dom.tag : Dom → String
  | .mk t _ _ _ _ => t

def Dom.ariaLabel : Dom → Option String
  | .mk _ a _ _ _ => a

def Dom.classes : Dom → Option (List String)
  | .mk _ _ c _ _ => c

def Dom.ownText : Dom → String
  | .mk _ _ _ s _ => s

def Dom.children : Dom → List Dom
  | .mk _ _ _ _ cs => cs

mutual
/-- All descendant elements of a node in document order
(`findChildren()` with no arguments). -/
def domDesc : Dom → List Dom
  | .mk _ _ _ _ cs => domDescList cs
def domDescList : List Dom → List Dom
  | [] => []
  | d :: ds => d :: (domDesc d ++ domDescList ds)
end

mutual
/-- The text of a node: its own string content followed by that of its
descendants (BeautifulSoup's `.text`). -/
def domText : Dom → String
  | .mk _ _ _ s cs => s ++ domTextList cs
def domTextList : List Dom → String
  | [] => ""
  | d :: ds => domText d ++ domTextList ds
end

mutual
/-- `soup.find_all(tagName)` in document order, each hit paired with its
ancestor chain (immediate parent first). -/
def domFindAll (tagName : String) (anc : List Dom) : Dom → List (List Dom × Dom)
  | .mk t a c s cs => (if t == tagName then [(anc, .mk t a c s cs)] else [])
      ++ domFindAllList tagName (.mk t a c s cs :: anc) cs
def domFindAllList (tagName : String) (anc : List Dom) : List Dom → List (List Dom × Dom)
  | [] => []
  | d :: ds => domFindAll tagName anc d ++ domFindAllList tagName anc ds
end

/-- The `Element` view of a tag that `extract_review` consumes. -/
def domToElement (d : Dom) : Element :=
  ⟨d.ariaLabel, (domDesc d).length, domText d⟩

/-- Truthiness of `get_rating` on a tag, as used by
`filter(get_rating, soup.find_all("div"))`. -/
def domRatingTruthy (d : Dom) : Bool :=
  match get_rating (domToElement d) with
  | some s => !(s == "")
  | none => false

/-- BeautifulSoup matching of `find_all("div", {"class": sig})` where the
filter value is a list and the class attribute is multi-valued: the tag
matches when one of its class values is one of the filter values. -/
def classMatches (sig : List String) (d : Dom) : Bool :=
  match d.classes with
  | some cls => cls.any (fun c => sig.contains c)
  | none => false

def elementUnboundMsg : String :=
  "UnboundLocalError: local variable _element referenced before assignment"

def noParentMsg : String :=
  "AttributeError: NoneType object has no attribute parent"

def noClassMsg : String := "KeyError: class"

/-- `parse_reviews` on a document: find the first div with a truthy rating
(`_element` stays unbound when there is none), read the class of its sixth
ancestor, collect the divs with a matching class, and extract a record
from each. -/
def parse_reviews (root : Dom) : Except String (List Review) :=
  let divs := domFindAll "div" [] root
  match (divs.filter (fun p => domRatingTruthy p.2)).head? with
  | none => .error elementUnboundMsg
  | some (anc, _) =>
    match anc.get? 5 with
    | none => .error noParentMsg
    | some p6 =>
      match p6.classes with
      | none => .error noClassMsg
      | some sig =>
        let containers := (divs.map (fun p => p.2)).filter (classMatches sig)
        parse_records (containers.map (fun c => (domDesc c).map domToElement))

/-! ## Concrete inputs used in the theorems below -/

/-- A childless descendant with visible text and no aria-label. -/
def txt (s : String) : Element := ⟨none, 0, s⟩

/-- A childless rating badge: aria-label present, no visible text. -/
def badge (l : String) : Element := ⟨some l, 0, ""⟩

def rl4 : String := "Rated 4 stars out of five stars"

def rl5 : String := "Rated 5 stars out of five stars"

/-- A candidate whose leaf texts end in a valid date and have length 3. -/
def candOneLeft : List Element :=
  [badge rl4, txt "alice", txt "bob", txt "June 2, 2020"]

/-- The reply-pair candidate of the spec's truncation example. -/
def candReplyPair : List Element :=
  [badge rl4, txt "anna", txt "June 1, 2020", txt "bob", txt "June 2, 2020"]

/-- A validation-passing candidate with no rating badge anywhere. -/
def candNoRating : List Element :=
  [txt "alice", txt "June 1, 2020", txt "nice"]

/-- A fully well-formed candidate. -/
def candGood : List Element :=
  [badge rl5, txt "erin", txt "March 3, 2021", txt "love it"]

/-- Two well-formed candidates for comparing the two scripts. -/
def candFay : List Element :=
  [badge rl4, txt "fay", txt "July 7, 2020", txt "good"]

def candGus : List Element :=
  [badge rl4, txt "gus", txt "July 8, 2020", txt "bad"]

def recFay : Review := ⟨"fay", "July 7, 2020", some "4", "good"⟩

def recGus : Review := ⟨"gus", "July 8, 2020", some "4", "bad"⟩

/-- A document with one div subtree and no rating anchor anywhere. -/
def noAnchorDoc : Dom :=
  .mk "[document]" none none ""
    [.mk "div" none none "" [.mk "div" none (some ["card"]) "hello" []]]

/-! ## Theorems -/

/-- The model of `is_date` reproduces the repository's own test vectors
(`tests/test_playscrape.py`), plus calendar-validation cases. -/
theorem is_date_matches_repo_tests :
    is_date "August 23, 2021" = true ∧ is_date "January 21, 1341" = true
    ∧ is_date "June 1, 1997" = true ∧ is_date "foo bar, baz" = false
    ∧ is_date "Nov 23, 1234" = false ∧ is_date "January 21, abcd" = false
    ∧ is_date "June 31, 2020" = false ∧ is_date "February 29, 2020" = true
    ∧ is_date "February 29, 2019" = false ∧ is_date "" = false := by
  decide

theorem mem_leaf_texts_ne_empty {c : List Element} {s : String}
    (h : s ∈ leaf_texts c) : s ≠ "" := by
  have := (List.mem_filter.mp h).2
  simpa using this

theorem truncate_reply_subset (parts : List String) :
    truncate_reply parts ⊆ parts := by
  unfold truncate_reply
  split
  · exact List.take_subset _ _
  · exact fun _ h => h

/-- C4: every record emitted by `extract_review` has a non-empty reviewer
and a date accepted by `is_date` (the exact "%B %d, %Y" format); a record
with a missing or defaulted reviewer or date is never emitted. -/
theorem extract_review_record_invariant (c : List Element) (r : Review)
    (h : extract_review c = .ok (some r)) :
    r.reviewer ≠ "" ∧ is_date r.date = true := by
  unfold extract_review validate_parts at h
  by_cases h0 : (leaf_texts c).length = 0
  · rw [if_pos h0] at h
    exact absurd h (by simp)
  · rw [if_neg h0] at h
    cases htr : truncate_reply (leaf_texts c) with
    | nil => rw [htr] at h; exact absurd h (by simp)
    | cons a tl =>
      cases tl with
      | nil => rw [htr] at h; exact absurd h (by simp)
      | cons b rest =>
        rw [htr] at h
        dsimp only at h
        by_cases hd : is_date b = true
        · rw [if_pos hd] at h
          cases hr : first_rating c with
          | none => rw [hr] at h; exact absurd h (by simp)
          | some rt =>
            rw [hr] at h
            simp only [Except.ok.injEq, Option.some.injEq] at h
            subst h
            refine ⟨?_, hd⟩
            have ha : a ∈ leaf_texts c :=
              truncate_reply_subset (leaf_texts c) (htr ▸ List.mem_cons_self a (b :: rest))
            exact mem_leaf_texts_ne_empty ha
        · rw [if_neg hd] at h
          exact absurd h (by simp)

/-- C4 witness: a concrete well-formed candidate is emitted and satisfies
the invariant. -/
theorem extract_review_record_invariant_witness :
    extract_review candGood = .ok (some ⟨"erin", "March 3, 2021", some "5", "love it"⟩)
    ∧ ((⟨"erin", "March 3, 2021", some "5", "love it"⟩ : Review).reviewer ≠ ""
       ∧ is_date (⟨"erin", "March 3, 2021", some "5", "love it"⟩ : Review).date = true) :=
  ⟨by decide, extract_review_record_invariant candGood _ (by decide)⟩

/-- C1 counterexample: the candidate `candOneLeft` has leaf texts
["alice", "bob", "June 2, 2020"], ending in a valid date; dropping the last
two values leaves exactly one value, and `extract_review` then raises
IndexError at the second `review_parts.pop(0)` instead of rejecting the
candidate, so extraction does abort the batch on this input. -/
theorem extract_review_aborts_on_one_left :
    extract_review candOneLeft = .error indexErrorMsg := by decide

/-- C1 amended: when the leaf-text list ends in a valid date and dropping
the last two values leaves exactly one value (length 3), the candidate is
not rejected at a later check: the second field pop raises an IndexError
which aborts the batch.  The defensive rejection only happens when the
truncated list is empty. -/
theorem extract_review_one_left_raises (c : List Element)
    (h3 : (leaf_texts c).length = 3)
    (hd : is_date ((leaf_texts c).getLastD "") = true) :
    extract_review c = .error indexErrorMsg := by
  obtain ⟨a, b, d, habd⟩ := List.length_eq_three.mp h3
  have hd' : is_date d = true := by rw [habd] at hd; simpa using hd
  unfold extract_review validate_parts
  rw [habd]
  simp [truncate_reply, hd']

/-- C1 amended witness: a concrete length-3, date-terminated candidate. -/
theorem extract_review_one_left_raises_witness :
    (leaf_texts [txt "xavier", txt "yann", txt "July 4, 2021"]).length = 3
    ∧ is_date ((leaf_texts [txt "xavier", txt "yann", txt "July 4, 2021"]).getLastD "") = true
    ∧ extract_review [txt "xavier", txt "yann", txt "July 4, 2021"] = .error indexErrorMsg :=
  ⟨by decide, by decide,
    extract_review_one_left_raises [txt "xavier", txt "yann", txt "July 4, 2021"]
      (by decide) (by decide)⟩

/-- C2 counterexample: on the reply-pair candidate with leaf texts
["anna", "June 1, 2020", "bob", "June 2, 2020"], dropping the last two
values leaves the two values ["anna", "June 1, 2020"] (not one), the
candidate passes validation, and a record IS emitted — the claim's
"rejected for insufficient fields, so no record is emitted" is false. -/
theorem reply_pair_emits_counterexample :
    truncate_reply (leaf_texts candReplyPair) = ["anna", "June 1, 2020"]
    ∧ extract_review candReplyPair
        = .ok (some ⟨"anna", "June 1, 2020", some "4", ""⟩) := by decide

/-- C2 amended: for a candidate whose non-empty leaf texts are exactly
[reviewerA, date1, replyAuthor, date2] with both dates valid, reply
truncation drops the last two values, leaving [reviewerA, date1]; the
candidate then passes validation and (when a rating annotation is present)
a record with reviewer reviewerA, date date1 and empty text is emitted. -/
theorem reply_pair_truncation_emits (c : List Element) (a d1 b d2 rt : String)
    (hl : leaf_texts c = [a, d1, b, d2])
    (h2 : is_date d2 = true) (h1 : is_date d1 = true)
    (hr : first_rating c = some rt) :
    truncate_reply (leaf_texts c) = [a, d1]
    ∧ extract_review c = .ok (some ⟨a, d1, some rt, ""⟩) := by
  have ht : truncate_reply (leaf_texts c) = [a, d1] := by
    simp [hl, truncate_reply, h2]
  refine ⟨ht, ?_⟩
  unfold extract_review validate_parts
  rw [hl] at ht ⊢
  simp [ht, h1, hr]

/-- C2 amended witness: a concrete reply-pair candidate. -/
theorem reply_pair_truncation_emits_witness :
    leaf_texts [badge rl5, txt "carol", txt "May 5, 2019", txt "dave", txt "May 6, 2019"]
        = ["carol", "May 5, 2019", "dave", "May 6, 2019"]
    ∧ is_date "May 6, 2019" = true ∧ is_date "May 5, 2019" = true
    ∧ first_rating [badge rl5, txt "carol", txt "May 5, 2019", txt "dave", txt "May 6, 2019"]
        = some "5"
    ∧ (truncate_reply (leaf_texts [badge rl5, txt "carol", txt "May 5, 2019", txt "dave", txt "May 6, 2019"])
          = ["carol", "May 5, 2019"]
       ∧ extract_review [badge rl5, txt "carol", txt "May 5, 2019", txt "dave", txt "May 6, 2019"]
          = .ok (some ⟨"carol", "May 5, 2019", some "5", ""⟩)) :=
  ⟨by decide, by decide, by decide, by decide,
    reply_pair_truncation_emits _ "carol" "May 5, 2019" "dave" "May 6, 2019" "5"
      (by decide) (by decide) (by decide) (by decide)⟩

/-- C7 counterexample: a candidate that passes validation but has no
descendant with a rating annotation makes `extract_review` raise
UnboundLocalError at the record construction; no record with an absent
rating is emitted. -/
theorem no_rating_counterexample :
    extract_review candNoRating = .error ratingUnboundMsg := by decide

/-- C7 amended: for every candidate container that passes validation
(non-empty leaf-text list whose post-truncation second value is a valid
date) but none of whose descendants carries a rating annotation, extraction
raises an unbound-variable error — aborting the batch — rather than
emitting a record whose rating field is absent. -/
theorem no_rating_candidate_raises (c : List Element) (a d : String)
    (rest : List String)
    (hne : leaf_texts c ≠ [])
    (ht : truncate_reply (leaf_texts c) = a :: d :: rest)
    (hd : is_date d = true)
    (hr : first_rating c = none) :
    extract_review c = .error ratingUnboundMsg := by
  unfold extract_review validate_parts
  rw [if_neg (by simpa [List.length_eq_zero] using hne)]
  rw [ht]
  simp [hd, hr]

/-- C7 amended witness: a concrete rating-free candidate. -/
theorem no_rating_candidate_raises_witness :
    leaf_texts [txt "zoe", txt "April 2, 2018", txt "ok"] ≠ []
    ∧ truncate_reply (leaf_texts [txt "zoe", txt "April 2, 2018", txt "ok"])
        = "zoe" :: "April 2, 2018" :: ["ok"]
    ∧ is_date "April 2, 2018" = true
    ∧ first_rating [txt "zoe", txt "April 2, 2018", txt "ok"] = none
    ∧ extract_review [txt "zoe", txt "April 2, 2018", txt "ok"] = .error ratingUnboundMsg :=
  ⟨by decide, by decide, by decide, by decide,
    no_rating_candidate_raises _ "zoe" "April 2, 2018" ["ok"]
      (by decide) (by decide) (by decide) (by decide)⟩

theorem cacheLookup_insert_self (k : String) (v : Bool) (c : Cache) :
    cacheLookup k (cacheInsert k v c) = some v := by
  simp [cacheLookup, cacheInsert, List.find?]

theorem cacheLookup_erase_self (k : String) (c : Cache) :
    cacheLookup k (cacheErase k c) = none := by
  have hf : List.find? (fun e => e.1 == k) (List.filter (fun e => !(e.1 == k)) c)
      = none := by
    rw [List.find?_eq_none]
    intro x hx
    have hq := (List.mem_filter.mp hx).2
    simp at hq ⊢
    exact hq
  simp [cacheLookup, cacheErase, hf]

theorem cacheLookup_insert_ne (k k' : String) (v : Bool) (c : Cache)
    (h : k ≠ k') : cacheLookup k (cacheInsert k' v c) = cacheLookup k c := by
  have hk : ((k', v).1 == k) = false := by simpa using fun e => h e.symm
  simp only [cacheLookup, cacheInsert, List.find?, hk]
  congr 1
  induction c with
  | nil => rfl
  | cons x xs ih =>
    by_cases hx : x.1 = k
    · have h1 : (x.1 == k) = true := by simpa using hx
      have h2 : (!(x.1 == k')) = true := by simpa using hx ▸ h
      simp [List.filter_cons, h2, List.find?, h1]
    · have h1 : (x.1 == k) = false := by simpa using hx
      by_cases hx' : x.1 = k'
      · have h2 : (!(x.1 == k')) = false := by simpa using hx'
        simp [List.filter_cons, h2, List.find?, h1, ih]
      · have h2 : (!(x.1 == k')) = true := by simpa using hx'
        simp [List.filter_cons, h2, List.find?, h1, ih]

theorem cacheLookup_erase_ne (k k' : String) (c : Cache)
    (h : k ≠ k') : cacheLookup k (cacheErase k' c) = cacheLookup k c := by
  simp only [cacheLookup, cacheErase]
  congr 1
  induction c with
  | nil => rfl
  | cons x xs ih =>
    by_cases hx : x.1 = k
    · have h1 : (x.1 == k) = true := by simpa using hx
      have h2 : (!(x.1 == k')) = true := by simpa using hx ▸ h
      simp [List.filter_cons, h2, List.find?, h1]
    · have h1 : (x.1 == k) = false := by simpa using hx
      by_cases hx' : x.1 = k'
      · have h2 : (!(x.1 == k')) = false := by simpa using hx'
        simp [List.filter_cons, h2, List.find?, h1, ih]
      · have h2 : (!(x.1 == k')) = true := by simpa using hx'
        simp [List.filter_cons, h2, List.find?, h1, ih]

/-- C5: for a key not in the cache, a first `attempt` that succeeds
performs exactly one underlying click (the click log grows by that one
key), and a second `attempt` with the identical key is a no-op returning
true: it performs no click and leaves the state unchanged. -/
theorem click_cache_idempotent (key : String) (out2 : Bool) (s : ClickState)
    (h : cacheLookup key s.cache = none) :
    (attempt true key s).1 = true
    ∧ (attempt true key s).2.clicks = s.clicks ++ [key]
    ∧ attempt out2 key (attempt true key s).2 = (true, (attempt true key s).2) := by
  have h1 : attempt true key s
      = (true, ⟨cacheInsert key true s.cache, s.clicks ++ [key]⟩) := by
    simp [attempt, _click_element, h]
  have h2 : cacheLookup key (cacheInsert key true s.cache) = some true :=
    cacheLookup_insert_self key true s.cache
  refine ⟨by rw [h1], by rw [h1], ?_⟩
  rw [h1]
  simp [attempt, _click_element, h2]

/-- C5 witness. -/
theorem click_cache_idempotent_witness :
    cacheLookup "button-full-review" (⟨[], []⟩ : ClickState).cache = none
    ∧ ((attempt true "button-full-review" ⟨[], []⟩).1 = true
       ∧ (attempt true "button-full-review" ⟨[], []⟩).2.clicks
           = (⟨[], []⟩ : ClickState).clicks ++ ["button-full-review"]
       ∧ attempt false "button-full-review" (attempt true "button-full-review" ⟨[], []⟩).2
           = (true, (attempt true "button-full-review" ⟨[], []⟩).2)) :=
  ⟨rfl, click_cache_idempotent "button-full-review" false ⟨[], []⟩ rfl⟩

/-- C6: for a key not in the cache, an `attempt` whose underlying click
fails returns false and leaves the key absent from the cache (the cached
False entry is deleted), so a later `attempt` with the same key performs
the underlying interaction again (the click log grows a second time). -/
theorem click_cache_retry (key : String) (out2 : Bool) (s : ClickState)
    (h : cacheLookup key s.cache = none) :
    (attempt false key s).1 = false
    ∧ cacheLookup key ((attempt false key s).2).cache = none
    ∧ ((attempt false key s).2).clicks = s.clicks ++ [key]
    ∧ ((attempt out2 key ((attempt false key s).2)).2).clicks
        = s.clicks ++ [key, key] := by
  have h1 : attempt false key s
      = (false, ⟨cacheErase key (cacheInsert key false s.cache), s.clicks ++ [key]⟩) := by
    simp [attempt, _click_element, h]
  have h2 : cacheLookup key (cacheErase key (cacheInsert key false s.cache)) = none :=
    cacheLookup_erase_self key (cacheInsert key false s.cache)
  refine ⟨by rw [h1], by rw [h1]; exact h2, by rw [h1], ?_⟩
  rw [h1]
  cases out2 <;> simp [attempt, _click_element, h2]

/-- C6 witness. -/
theorem click_cache_retry_witness :
    cacheLookup "span-show-more" (⟨[], ["prior"]⟩ : ClickState).cache = none
    ∧ ((attempt false "span-show-more" ⟨[], ["prior"]⟩).1 = false
       ∧ cacheLookup "span-show-more" ((attempt false "span-show-more" ⟨[], ["prior"]⟩).2).cache = none
       ∧ ((attempt false "span-show-more" ⟨[], ["prior"]⟩).2).clicks
           = (⟨[], ["prior"]⟩ : ClickState).clicks ++ ["span-show-more"]
       ∧ ((attempt true "span-show-more" ((attempt false "span-show-more" ⟨[], ["prior"]⟩).2)).2).clicks
           = (⟨[], ["prior"]⟩ : ClickState).clicks ++ ["span-show-more", "span-show-more"]) :=
  ⟨rfl, click_cache_retry "span-show-more" true ⟨[], ["prior"]⟩ rfl⟩

theorem attempt_preserves_true (k k' : String) (o : Bool) (s : ClickState)
    (h : cacheLookup k s.cache = some true) :
    cacheLookup k ((attempt o k' s).2).cache = some true := by
  by_cases hk : k' = k
  · subst hk
    simp [attempt, _click_element, h]
  · have hne : k ≠ k' := fun e => hk e.symm
    unfold attempt _click_element
    cases hl : cacheLookup k' s.cache with
    | some v => cases v <;> simp [hl, cacheLookup_erase_ne k k' _ hne, h]
    | none =>
      cases o <;>
        simp [hl, cacheLookup_erase_ne k k' _ hne,
          cacheLookup_insert_ne k k' _ _ hne, h]

theorem run_clicks_preserves_true (acts : List (String × Bool)) (k : String)
    (s : ClickState) (h : cacheLookup k s.cache = some true) :
    cacheLookup k ((run_clicks acts s).cache) = some true := by
  induction acts generalizing s with
  | nil => exact h
  | cons a as ih =>
    exact ih ((attempt a.2 a.1 s).2) (attempt_preserves_true k a.1 a.2 s h)

/-- C8 counterexample: one per-identifier crawl clicks one element
successfully; after its browser session closes (nothing in the source
touches the module-level CACHE at session close), the cache still contains
the entry recorded during that session — the next crawl in the batch starts
with it. -/
theorem cache_survives_session_close :
    cacheLookup "session1-full-review"
        ((session_crawl [("session1-full-review", true)] ⟨[], []⟩).cache)
      = some true := by decide

/-- C8 amended: click-cache entries do NOT expire with the browser
session: CACHE is a module-level global that no code ever clears, so an
entry recorded as successful in one session persists through every
subsequent per-identifier crawl of the batch. -/
theorem cache_entry_persists_across_sessions (batch : List (List (String × Bool)))
    (k : String) (s : ClickState) (h : cacheLookup k s.cache = some true) :
    cacheLookup k ((run_batch batch s).cache) = some true := by
  induction batch generalizing s with
  | nil => exact h
  | cons acts rest ih =>
    exact ih (session_crawl acts s) (run_clicks_preserves_true acts k s h)

/-- C8 amended witness: the entry recorded in session 1 is still present
after two further sessions. -/
theorem cache_entry_persists_across_sessions_witness :
    cacheLookup "s1-btn" ((session_crawl [("s1-btn", true)] ⟨[], []⟩).cache) = some true
    ∧ cacheLookup "s1-btn"
        ((run_batch [[("s2-btn", true)], [("s3-btn", false)]]
            (session_crawl [("s1-btn", true)] ⟨[], []⟩)).cache) = some true :=
  ⟨by decide,
    cache_entry_persists_across_sessions [[("s2-btn", true)], [("s3-btn", false)]]
      "s1-btn" (session_crawl [("s1-btn", true)] ⟨[], []⟩) (by decide)⟩

theorem expand_rounds_stops (lens : Nat → Nat) :
    ∀ (m i k : Nat), i < k → k ≤ i + m → lens k = lens (k - 1) →
      (∀ j, i < j → j < k → lens j ≠ lens (j - 1)) →
      expand_rounds lens i m = (k, true) := by
  intro m
  induction m with
  | zero => intro i k h1 h2 _ _; omega
  | succ n ih =>
    intro i k h1 h2 hk hbef
    unfold expand_rounds
    by_cases he : lens (i + 1) = lens i
    · have hik : k = i + 1 := by
        by_contra hne
        have hlt : i + 1 < k := by omega
        exact hbef (i + 1) (by omega) hlt (by simpa using he)
      rw [if_pos (by simpa using he), hik]
    · rw [if_neg (by simpa using he)]
      have hik : i + 1 < k := by
        rcases Nat.lt_or_ge (i + 1) k with hlt | hge
        · exact hlt
        · exfalso
          have : k = i + 1 := by omega
          rw [this] at hk
          simp at hk
          exact he hk
      exact ih (i + 1) k hik (by omega) hk (fun j hj1 hj2 => hbef j (by omega) hj2)

theorem expand_rounds_exhausts (lens : Nat → Nat) :
    ∀ (m i : Nat), (∀ j, i < j → j ≤ i + m → lens j ≠ lens (j - 1)) →
      expand_rounds lens i m = (i + m, false) := by
  intro m
  induction m with
  | zero => intro i _; rfl
  | succ n ih =>
    intro i h
    unfold expand_rounds
    have hne : ¬ lens (i + 1) = lens i := by
      have := h (i + 1) (by omega) (by omega)
      simpa using this
    rw [if_neg (by simpa using hne)]
    have := ih (i + 1) (fun j hj1 hj2 => h j (by omega) (by omega))
    rw [this]
    congr 1
    omega

/-- C3: if the rendered content length first stops changing at round
k ≤ n (round j compares the length after j rounds with the length after
j - 1 rounds), `expand_reviews` with budget n executes exactly k rounds,
reports the end found, and prints no non-convergence warning; if the
length changes on every round of the budget, it executes exactly n rounds
and prints the warning. -/
theorem expand_reviews_convergence :
    (∀ (lens : Nat → Nat) (n k : Nat), 1 ≤ k → k ≤ n →
        lens k = lens (k - 1) →
        (∀ j, 1 ≤ j → j < k → lens j ≠ lens (j - 1)) →
        expand_reviews lens n = (k, true) ∧ expand_warns lens n = false)
    ∧ (∀ (lens : Nat → Nat) (n : Nat),
        (∀ j, 1 ≤ j → j ≤ n → lens j ≠ lens (j - 1)) →
        expand_reviews lens n = (n, false) ∧ expand_warns lens n = true) := by
  constructor
  · intro lens n k h1 h2 hk hbef
    have hr : expand_rounds lens 0 n = (k, true) :=
      expand_rounds_stops lens n 0 k (by omega) (by omega) hk
        (fun j hj1 hj2 => hbef j (by omega) hj2)
    exact ⟨hr, by simp [expand_warns, expand_reviews, hr]⟩
  · intro lens n h
    have hr : expand_rounds lens 0 n = (n, false) := by
      have := expand_rounds_exhausts lens n 0 (fun j hj1 hj2 => h j (by omega) (by omega))
      simpa using this
    exact ⟨hr, by simp [expand_warns, expand_reviews, hr]⟩

/-- C3 witness: a mock page whose length stabilizes after 2 rounds of
growth is detected at round 3 of a 10-round budget with no warning, and a
mock page that always grows exhausts all 10 rounds with the warning. -/
theorem expand_reviews_convergence_witness :
    (expand_reviews (fun j => min j 2) 10 = (3, true)
      ∧ expand_warns (fun j => min j 2) 10 = false)
    ∧ (expand_reviews (fun j => j) 10 = (10, false)
      ∧ expand_warns (fun j => j) 10 = true) :=
  ⟨expand_reviews_convergence.1 (fun j => min j 2) 10 3 (by omega) (by omega)
      (by decide) (by intro j h1 h2; interval_cases j <;> decide),
    expand_reviews_convergence.2 (fun j => j) 10
      (by intro j h1 h2; show j ≠ j - 1; omega)⟩

/-- C9: on the same two accepted candidate containers, the superseded
second script's `scrape` keeps only the even positions of its
accepted-record sequence (it accepts both records but returns one), while
the first script's `parse_reviews` collection returns every accepted
record; the two implementations are extensionally different on this
input. -/
theorem scrape_parity_divergence :
    (([candFay, candGus].mapM scrape_extract).map (fun l => l.filterMap id)
        = .ok [recFay, recGus])
    ∧ scrape_records [candFay, candGus] = .ok [recFay]
    ∧ parse_records [candFay, candGus] = .ok [recFay, recGus]
    ∧ parse_records [candFay, candGus] ≠ scrape_records [candFay, candGus] := by
  decide

/-- C10: on a snapshot none of whose div elements carries a rating-anchor
aria-label, `parse_reviews` does not return an empty record list: the
`for _element in filter(get_rating, ...)` loop binds nothing and the
subsequent `.parent` walk raises UnboundLocalError. -/
theorem parse_reviews_no_anchor_errors (root : Dom)
    (h : ∀ p ∈ domFindAll "div" [] root, domRatingTruthy p.2 = false) :
    parse_reviews root = .error elementUnboundMsg
    ∧ parse_reviews root ≠ .ok [] := by
  have hfil : (domFindAll "div" [] root).filter (fun p => domRatingTruthy p.2) = [] := by
    rw [List.filter_eq_nil_iff]
    intro p hp
    simp [h p hp]
  have h1 : parse_reviews root = .error elementUnboundMsg := by
    simp only [parse_reviews]
    rw [hfil]
    rfl
  exact ⟨h1, by rw [h1]; simp⟩

/-- C10 witness: a concrete anchor-free document. -/
theorem parse_reviews_no_anchor_errors_witness :
    (∀ p ∈ domFindAll "div" [] noAnchorDoc, domRatingTruthy p.2 = false)
    ∧ (parse_reviews noAnchorDoc = .error elementUnboundMsg
       ∧ parse_reviews noAnchorDoc ≠ .ok []) :=
  ⟨by decide, parse_reviews_no_anchor_errors noAnchorDoc (by decide)⟩

end Playscrape
